import Mathlib

/-!
Shallow embedding of the profile data-access / caching / subscription layer
(`src/api.js`, class `UserAPI`) of the dashboard widget.

Modelling conventions:
* A JavaScript value stored in a profile object is `JsVal` (string or number).
* A JavaScript object (as used here: a JSON record) is an association list
  `Obj := List (String × JsVal)`; the `Map` used for the cache is an
  association list `List (String × Obj)`.  `mget`/`mset`/`mdel` give the
  `Map.get`/`Map.set`/`Map.delete` semantics; lookup is first-match.
* `new Date().toISOString()` is modelled by a time parameter `t : Nat`
  stamped as `JsVal.num t` (ISO-8601 strings of increasing instants compare
  exactly like the instants themselves).
* `fetch` is modelled by an oracle argument giving the network outcome:
  a parsed successful body, a non-2xx status, or a transport error.
  `response.json()` failures behave like transport errors (both are caught
  by the surrounding `try`).
* Subscriber callbacks are identified by `Nat` handles; a behaviour oracle
  `throws : Nat → Obj → Bool` says whether a given callback throws when
  invoked with a given record.  Invoking a callback is observable as a pair
  (handle, record) in an invocation log; `console.error` calls are an error
  log of strings.
-/

namespace UserAPI

/-- A JavaScript value as stored in a profile record: a string or a number
(timestamps are modelled as numbers, see the header comment). -/
inductive JsVal where
  | str : String → JsVal
  | num : Nat → JsVal
deriving DecidableEq, Repr

/-- A JavaScript object (JSON record): an association list from field name
to value, first occurrence wins on lookup. -/
abbrev Obj := List (String × JsVal)

/-- Lookup in an association list (JS `Map.get` / property read). -/
def mget {α : Type} (m : List (String × α)) (k : String) : Option α :=
  (m.find? (fun p => p.1 == k)).map Prod.snd

/-- Update in an association list (JS `Map.set` / property write): replaces
the first binding of the key in place, or appends a fresh binding. -/
def mset {α : Type} : List (String × α) → String → α → List (String × α)
  | [], k, v => [(k, v)]
  | p :: rest, k, v => if p.1 = k then (k, v) :: rest else p :: mset rest k v

/-- Deletion from an association list (JS `Map.delete`). -/
def mdel {α : Type} (m : List (String × α)) (k : String) : List (String × α) :=
  m.filter (fun p => p.1 ≠ k)

/-- First-some choice on optional values (what a JS object-spread lookup
computes: prefer the overriding object's field). -/
def firstSome (x y : Option JsVal) : Option JsVal :=
  match x with
  | some v => some v
  | none => y

/-- JS object spread `{...a, ...b}`: every binding of `b` written over `a`
in order, fields of `b` winning. -/
def Obj.spread (a b : Obj) : Obj :=
  b.foldl (fun acc p => mset acc p.1 p.2) a

/-- UTF-8 encoding of a single Unicode code point, as a list of byte values. -/
def utf8Bytes (n : Nat) : List Nat :=
  if n < 128 then [n]
  else if n < 2048 then [192 + n / 64, 128 + n % 64]
  else if n < 65536 then [224 + n / 4096, 128 + (n / 64) % 64, 128 + n % 64]
  else [240 + n / 262144, 128 + (n / 4096) % 64, 128 + (n / 64) % 64, 128 + n % 64]

/-- The UTF-8 bytes of a string. -/
def strBytes (s : String) : List Nat :=
  s.data.foldr (fun c acc => utf8Bytes c.toNat ++ acc) []

/-- The bytes `encodeURIComponent` leaves unescaped:
`A-Z a-z 0-9 - . _ ! ~ * ( )` and the apostrophe (code 39). -/
def uriUnreserved (b : Nat) : Bool :=
  (65 ≤ b && b ≤ 90) || (97 ≤ b && b ≤ 122) || (48 ≤ b && b ≤ 57) ||
  b == 45 || b == 46 || b == 95 || b == 33 || b == 126 || b == 42 ||
  b == 39 || b == 40 || b == 41

/-- Uppercase hexadecimal digit for a value below 16. -/
def hexDigit (n : Nat) : Char :=
  if n < 10 then Char.ofNat (48 + n) else Char.ofNat (55 + n)

/-- Percent-encoding of one byte. -/
def encodeByte (b : Nat) : String :=
  if uriUnreserved b then String.mk [Char.ofNat b]
  else String.mk [Char.ofNat 37, hexDigit (b / 16), hexDigit (b % 16)]

/-- JavaScript `encodeURIComponent`: percent-encodes every UTF-8 byte of the
string except the unreserved set. -/
def encodeURIComponent (s : String) : String :=
  ((strBytes s).map encodeByte).foldl (· ++ ·) ""

/-- JS `String.prototype.split(' ')` (single-space separator, no collapsing
of empty tokens), over the character list. -/
def splitOnSpaceChars : List Char → List (List Char)
  | [] => [[]]
  | c :: rest =>
      if c = ' ' then [] :: splitOnSpaceChars rest
      else
        match splitOnSpaceChars rest with
        | [] => [[c]]
        | w :: ws => (c :: w) :: ws

/-- The `initials` computation of `UserAPI.generateAvatarURL`
(`src/api.js` lines 64–68): split on single spaces,
`word.charAt(0).toUpperCase()` for each token, joined, first two characters.
In the source this value is computed and then never used. -/
def initialsOf (name : String) : String :=
  String.mk ((((splitOnSpaceChars name.data).map
    (fun w => (w.take 1).map Char.toUpper)).foldl (· ++ ·) []).take 2)

/-- Embedding of `UserAPI.generateAvatarURL` (`src/api.js` lines 62–71): the returned URL
template embeds `encodeURIComponent(name)` — the full name, not the
`initials` value, which the source computes and discards. -/
def generateAvatarURL (name : String) : String :=
  let _initials := initialsOf name
  "https://ui-avatars.com/api/?name=" ++ encodeURIComponent name ++
    "&size=80&background=667eea&color=ffffff&bold=true"

/-- Modelled from the spec (NOT from the source), for comparison: the avatar
URL as §4.1 describes it, with the uppercase initials of each
whitespace-separated name token, truncated to two characters, embedded in
the same fixed avatar-service URL template. -/
def specAvatarURL (name : String) : String :=
  "https://ui-avatars.com/api/?name=" ++ encodeURIComponent (initialsOf name) ++
    "&size=80&background=667eea&color=ffffff&bold=true"

/-- The state owned by a `UserAPI` instance: the `cache` map and the
`subscribers` set (a JS `Set` iterated in insertion order, modelled as a
duplicate-free list of callback handles). -/
structure ApiState where
  cache : List (String × Obj)
  subscribers : List Nat
deriving DecidableEq, Repr

/-- The cache key derived from a user identifier: `` `user_${userId}` ``. -/
def cacheKey (userId : Nat) : String := "user_" ++ toString userId

/-- The server data consumed by a successful GET `/users/{id}`:
`name` must be a string (the source calls `name.split` on it);
`company` is an optional object whose `name` is read with `?.` and `|| ''`. -/
structure UserData where
  id : JsVal
  name : String
  email : JsVal
  username : JsVal
  phone : JsVal
  website : JsVal
  companyName : Option String
deriving DecidableEq, Repr

/-- Network outcome oracle for the GET in `fetchUserProfile`. -/
inductive FetchResponse where
  | ok : UserData → FetchResponse
  | httpError : Nat → FetchResponse
  | transportError : FetchResponse
deriving DecidableEq, Repr

/-- Network outcome oracle for the PUT in `updateUserProfile`; a success
carries the parsed response body. -/
inductive UpdateResponse where
  | ok : Obj → UpdateResponse
  | httpError : Nat → UpdateResponse
  | transportError : UpdateResponse
deriving DecidableEq, Repr

/-- The user-safe message `fetchUserProfile` fails with. -/
def fetchErrorMsg : String := "Failed to fetch user profile. Please try again later."

/-- The user-safe message `updateUserProfile` fails with. -/
def updateErrorMsg : String := "Failed to update user profile. Please try again later."

/-- The profile object built from a successful GET response
(`src/api.js` lines 35–45), `lastUpdated` stamped with the current time `t`. -/
def transformProfile (u : UserData) (t : Nat) : Obj :=
  [("id", u.id),
   ("name", JsVal.str u.name),
   ("email", u.email),
   ("avatar", JsVal.str (generateAvatarURL u.name)),
   ("username", u.username),
   ("phone", u.phone),
   ("website", u.website),
   ("company", JsVal.str (u.companyName.getD "")),
   ("lastUpdated", JsVal.num t)]

/-- Result of one `fetchUserProfile` call: the settled promise, the state
after the call, and how many network requests were issued. -/
structure FetchOutcome where
  result : Except String Obj
  state : ApiState
  requests : Nat
deriving Repr

/-- Embedding of `UserAPI.fetchUserProfile` (`src/api.js` lines 17–55): cache hit returns
the cached record with no request; a miss issues one request and either
caches the transformed record or fails with the generic message (the `catch`
turns both a thrown HTTP-status error and a transport error into it). -/
def fetchUserProfile (st : ApiState) (resp : FetchResponse) (t : Nat) (userId : Nat) :
    FetchOutcome :=
  match mget st.cache (cacheKey userId) with
  | some cached => ⟨Except.ok cached, st, 0⟩
  | none =>
    match resp with
    | FetchResponse.ok userData =>
        let profileData := transformProfile userData t
        ⟨Except.ok profileData,
         { st with cache := mset st.cache (cacheKey userId) profileData }, 1⟩
    | FetchResponse.httpError _ => ⟨Except.error fetchErrorMsg, st, 1⟩
    | FetchResponse.transportError => ⟨Except.error fetchErrorMsg, st, 1⟩

/-- The message logged by the `catch` around each subscriber callback. -/
def subscriberErrorMsg : String := "Error in subscriber callback"

/-- Embedding of `UserAPI.notifySubscribers` (`src/api.js` lines 141–149): iterate the
subscriber set in insertion order; each callback invocation is wrapped in
its own `try`/`catch`, so a throwing callback is logged and iteration
continues.  Returns the invocation log and the error log. -/
def notifySubscribers (throws : Nat → Obj → Bool) (subs : List Nat) (profileData : Obj) :
    List (Nat × Obj) × List String :=
  subs.foldl
    (fun acc callback =>
      if throws callback profileData then
        (acc.1 ++ [(callback, profileData)], acc.2 ++ [subscriberErrorMsg])
      else
        (acc.1 ++ [(callback, profileData)], acc.2))
    ([], [])

/-- Result of one `updateUserProfile` call: the settled promise, the state
after the call, the subscriber invocation log and the error log. -/
structure UpdateOutcome where
  result : Except String Obj
  state : ApiState
  invocations : List (Nat × Obj)
  errorLog : List String
deriving Repr

/-- Embedding of `UserAPI.updateUserProfile` (`src/api.js` lines 87–122): on failure the
`catch` rethrows the generic message and nothing else happens; on success
the response is spread over the cached record (`{...cachedData,
...updatedData, lastUpdated: ...}`), stored, and broadcast. -/
def updateUserProfile (st : ApiState) (throws : Nat → Obj → Bool)
    (resp : UpdateResponse) (t : Nat) (userId : Nat) (profileData : Obj) : UpdateOutcome :=
  match resp with
  | UpdateResponse.httpError _ => ⟨Except.error updateErrorMsg, st, [], []⟩
  | UpdateResponse.transportError => ⟨Except.error updateErrorMsg, st, [], []⟩
  | UpdateResponse.ok updatedData =>
      let cachedData := (mget st.cache (cacheKey userId)).getD []
      let mergedData := mset (Obj.spread cachedData updatedData) "lastUpdated" (JsVal.num t)
      let notified := notifySubscribers throws st.subscribers mergedData
      ⟨Except.ok mergedData,
       { st with cache := mset st.cache (cacheKey userId) mergedData },
       notified.1, notified.2⟩

/-- Embedding of `UserAPI.subscribe` (`src/api.js` lines 128–135): `Set.add` — insertion
order, identity-deduplicated. -/
def subscribe (st : ApiState) (callback : Nat) : ApiState :=
  { st with subscribers :=
      if callback ∈ st.subscribers then st.subscribers
      else st.subscribers ++ [callback] }

/-- The disposer returned by `subscribe`: `Set.delete` of the callback. -/
def unsubscribe (st : ApiState) (callback : Nat) : ApiState :=
  { st with subscribers := st.subscribers.filter (fun c => c ≠ callback) }

/-- JS truthiness of the optional numeric `userId` argument of `clearCache`
(`null` and `0` are falsy). -/
def jsTruthy : Option Nat → Bool
  | none => false
  | some n => n != 0

/-- Embedding of `UserAPI.clearCache` (`src/api.js` lines 155–161): `if (userId)` deletes
the single key, `else` clears the whole map. -/
def clearCache (st : ApiState) (userId : Option Nat) : ApiState :=
  match userId with
  | some n =>
      if jsTruthy (some n) then { st with cache := mdel st.cache (cacheKey n) }
      else { st with cache := [] }
  | none => { st with cache := [] }

/-- One tick of `UserAPI.simulateRealTimeUpdates` (`src/api.js` lines
167–187): if `user_1` is cached, refresh `lastSeen` and `lastUpdated` on a
copy, store it and broadcast it; otherwise do nothing.  Returns the state,
the invocation log and the error log. -/
def simulateTick (st : ApiState) (throws : Nat → Obj → Bool) (t : Nat) :
    ApiState × List (Nat × Obj) × List String :=
  match mget st.cache "user_1" with
  | none => (st, [], [])
  | some currentProfile =>
      let updatedProfile :=
        mset (mset currentProfile "lastSeen" (JsVal.num t)) "lastUpdated" (JsVal.num t)
      let notified := notifySubscribers throws st.subscribers updatedProfile
      ({ st with cache := mset st.cache "user_1" updatedProfile },
       notified.1, notified.2)

/-- The merged record a successful `updateUserProfile` stores for the key:
the response spread over the cached record, `lastUpdated` restamped. -/
def mergedRecord (st : ApiState) (upd : Obj) (t userId : Nat) : Obj :=
  mset (Obj.spread ((mget st.cache (cacheKey userId)).getD []) upd)
    "lastUpdated" (JsVal.num t)

/-- The record one simulated-refresh tick stores for `user_1` when an entry
`cur` exists: `cur` with `lastSeen` and `lastUpdated` refreshed to `t`. -/
def refreshedRecord (cur : Obj) (t : Nat) : Obj :=
  mset (mset cur "lastSeen" (JsVal.num t)) "lastUpdated" (JsVal.num t)

/-- A concrete server payload used by the witnesses. -/
def sampleUser : UserData :=
  ⟨JsVal.num 1, "Jane Doe", JsVal.str "jane@example.com", JsVal.str "jdoe",
   JsVal.str "555-1234", JsVal.str "example.com", some "Acme"⟩

/-- A concrete cached record used by the witnesses. -/
def wCached : Obj := [("name", JsVal.str "Old"), ("x", JsVal.num 5)]

/-- A concrete state with a cached entry for user 1 and two subscribers,
used by the witnesses. -/
def wState : ApiState := ApiState.mk [(cacheKey 1, wCached)] [3, 4]

/-- One state-touching operation of the API, with its network outcome
oracle where the operation talks to the network. -/
inductive Op where
  | fetch : FetchResponse → Nat → Op
  | update : UpdateResponse → Nat → Obj → Op
  | tick : Op
  | clear : Option Nat → Op
  | sub : Nat → Op
  | unsub : Nat → Op
deriving DecidableEq, Repr

/-- The state after running one operation at time `t`. -/
def applyOp (throws : Nat → Obj → Bool) (st : ApiState) (t : Nat) : Op → ApiState
  | Op.fetch resp uid => (fetchUserProfile st resp t uid).state
  | Op.update resp uid pd => (updateUserProfile st throws resp t uid pd).state
  | Op.tick => (simulateTick st throws t).1
  | Op.clear uid => clearCache st uid
  | Op.sub c => subscribe st c
  | Op.unsub c => unsubscribe st c

/-- The write event one operation produces at a cache key, given the value
of the key before (`old`) and after (`new`) the operation: a record was
written at time `t` exactly when the value changed to a present record. -/
def writeEvent (old new : Option Obj) (t : Nat) : List (Nat × Obj) :=
  if new = old then []
  else
    match new with
    | some r => [(t, r)]
    | none => []

/-- The successive writes to cache key `k` along a timed trace of
operations: each record newly stored at `k`, paired with the time of the
operation that wrote it. -/
def writesTo (throws : Nat → Obj → Bool) (k : String) :
    ApiState → List (Nat × Op) → List (Nat × Obj)
  | _, [] => []
  | st, (t, op) :: rest =>
      writeEvent (mget st.cache k) (mget (applyOp throws st t op).cache k) t
        ++ writesTo throws k (applyOp throws st t op) rest

/-- A concrete timed trace used by the witnesses: a fetch, then an update,
then a simulated-refresh tick, at increasing times. -/
def witTrace : List (Nat × Op) :=
  [(1, Op.fetch (FetchResponse.ok sampleUser) 1),
   (2, Op.update (UpdateResponse.ok [("name", JsVal.str "X")]) 1 []),
   (3, Op.tick)]

theorem mget_nil {α : Type} (k : String) : mget ([] : List (String × α)) k = none := rfl

theorem mget_cons {α : Type} (p : String × α) (m : List (String × α)) (k : String) :
    mget (p :: m) k = if p.1 = k then some p.2 else mget m k := by
  by_cases h : p.1 = k
  · simp [mget, List.find?, h]
  · have hb : (p.1 == k) = false := by simpa using h
    simp [mget, List.find?, hb, h]

theorem mget_mset_self {α : Type} (m : List (String × α)) (k : String) (v : α) :
    mget (mset m k v) k = some v := by
  induction m with
  | nil => simp [mset, mget_cons]
  | cons p rest ih =>
    by_cases h : p.1 = k
    · simp [mset, h, mget_cons]
    · simp [mset, h, mget_cons, ih]

theorem mget_mset_ne {α : Type} (m : List (String × α)) (k k' : String) (v : α)
    (h : k' ≠ k) : mget (mset m k v) k' = mget m k' := by
  induction m with
  | nil => simp [mset, mget_cons, mget_nil, (Ne.symm h)]
  | cons p rest ih =>
    by_cases hp : p.1 = k
    · simp [mset, hp, mget_cons, Ne.symm h, hp ▸ (Ne.symm h)]
    · simp [mset, hp, mget_cons, ih]

theorem mdel_cons_self {α : Type} (p : String × α) (m : List (String × α)) (k : String)
    (h : p.1 = k) : mdel (p :: m) k = mdel m k := by
  simp [mdel, h]

theorem mdel_cons_ne {α : Type} (p : String × α) (m : List (String × α)) (k : String)
    (h : p.1 ≠ k) : mdel (p :: m) k = p :: mdel m k := by
  simp [mdel, h]

theorem mget_mdel_self {α : Type} (m : List (String × α)) (k : String) :
    mget (mdel m k) k = none := by
  induction m with
  | nil => rfl
  | cons p rest ih =>
    by_cases h : p.1 = k
    · rw [mdel_cons_self p rest k h, ih]
    · rw [mdel_cons_ne p rest k h, mget_cons, ih]
      simp [h]

theorem mget_mdel_ne {α : Type} (m : List (String × α)) (k k' : String)
    (h : k' ≠ k) : mget (mdel m k) k' = mget m k' := by
  induction m with
  | nil => rfl
  | cons p rest ih =>
    by_cases hp : p.1 = k
    · rw [mdel_cons_self p rest k hp, ih, mget_cons]
      have hpk : p.1 ≠ k' := by rw [hp]; exact Ne.symm h
      simp [hpk]
    · rw [mdel_cons_ne p rest k hp, mget_cons, mget_cons, ih]

theorem mget_eq_none_of_not_mem {α : Type} (m : List (String × α)) (k : String)
    (h : k ∉ m.map Prod.fst) : mget m k = none := by
  induction m with
  | nil => rfl
  | cons p rest ih =>
    simp only [List.map_cons, List.mem_cons] at h
    push_neg at h
    simp [mget_cons, Ne.symm h.1, ih h.2]

theorem mget_spread (a b : Obj) (k : String) (hb : (b.map Prod.fst).Nodup) :
    mget (Obj.spread a b) k = firstSome (mget b k) (mget a k) := by
  induction b generalizing a with
  | nil => simp [Obj.spread, firstSome, mget_nil]
  | cons p rest ih =>
    simp only [List.map_cons, List.nodup_cons] at hb
    have hrest := ih (mset a p.1 p.2) hb.2
    simp only [Obj.spread, List.foldl_cons] at hrest ⊢
    by_cases hk : p.1 = k
    · have hnone : mget rest k = none :=
        mget_eq_none_of_not_mem rest k (by rw [← hk]; exact hb.1)
      rw [hrest, hnone, mget_cons]
      simp [hk, firstSome, mget_mset_self, hk ▸ mget_mset_self a p.1 p.2]
    · rw [hrest, mget_cons]
      simp [hk, mget_mset_ne a p.1 k p.2 (fun h => hk h.symm)]

/-- Closed form of `notifySubscribers`: every subscriber is invoked exactly
once with the record, in order, and exactly the throwing ones are logged. -/
theorem notifySubscribers_eq (throws : Nat → Obj → Bool) (subs : List Nat) (r : Obj) :
    notifySubscribers throws subs r
      = (subs.map (fun c => (c, r)),
         (subs.filter (fun c => throws c r)).map (fun _ => subscriberErrorMsg)) := by
  have go : ∀ (l : List Nat) (acc : List (Nat × Obj) × List String),
      List.foldl
        (fun acc callback =>
          if throws callback r then
            (acc.1 ++ [(callback, r)], acc.2 ++ [subscriberErrorMsg])
          else
            (acc.1 ++ [(callback, r)], acc.2)) acc l
        = (acc.1 ++ l.map (fun c => (c, r)),
           acc.2 ++ (l.filter (fun c => throws c r)).map (fun _ => subscriberErrorMsg)) := by
    intro l
    induction l with
    | nil => intro acc; simp
    | cons c rest ih =>
      intro acc
      by_cases h : throws c r
      · simp [List.foldl_cons, h, ih, List.filter_cons]
      · simp [List.foldl_cons, h, ih, List.filter_cons]
  simpa [notifySubscribers] using go subs ([], [])

/-- C1, counterexample: for the name "Jane Doe" the URL produced by
`generateAvatarURL` embeds the URL-encoded full name `Jane%20Doe`, not the
initials `JD`; it differs from the URL the spec's initials rule yields. -/
theorem avatar_url_initials_counterexample :
    initialsOf "Jane Doe" = "JD" ∧
    generateAvatarURL "Jane Doe" =
      "https://ui-avatars.com/api/?name=Jane%20Doe&size=80&background=667eea&color=ffffff&bold=true" ∧
    specAvatarURL "Jane Doe" =
      "https://ui-avatars.com/api/?name=JD&size=80&background=667eea&color=ffffff&bold=true" ∧
    generateAvatarURL "Jane Doe" ≠ specAvatarURL "Jane Doe" := by
  refine ⟨by decide, by decide, by decide, by decide⟩

/-- C1, amended: the avatar URL produced during a fetch is a deterministic
pure function of the name that embeds the URL-encoded full name in the
fixed avatar-service URL template (the initials computation in the source
is dead code); for "Jane Doe" the URL encodes "Jane%20Doe". -/
theorem avatar_url_embeds_encoded_name :
    (∀ name : String, generateAvatarURL name =
      "https://ui-avatars.com/api/?name=" ++ encodeURIComponent name ++
        "&size=80&background=667eea&color=ffffff&bold=true") ∧
    (∀ (u : UserData) (t : Nat),
      mget (transformProfile u t) "avatar"
        = some (JsVal.str (generateAvatarURL u.name))) ∧
    generateAvatarURL "Jane Doe" =
      "https://ui-avatars.com/api/?name=Jane%20Doe&size=80&background=667eea&color=ffffff&bold=true" := by
  exact ⟨fun name => rfl, fun u t => rfl, by decide⟩

/-- C2: a cache hit returns the cached record with no network request, and
two consecutive `fetchUserProfile` calls for the same userId (the first
succeeding from a cache miss) issue exactly one request in total, the
second call returning the record the first one stored. -/
theorem fetch_cache_hit_single_request (st : ApiState) (u : UserData)
    (resp' : FetchResponse) (t t' userId : Nat)
    (hmiss : mget st.cache (cacheKey userId) = none) :
    (∀ (st2 : ApiState) (q : Obj) (resp2 : FetchResponse) (t2 : Nat),
        mget st2.cache (cacheKey userId) = some q →
        fetchUserProfile st2 resp2 t2 userId = ⟨Except.ok q, st2, 0⟩) ∧
    (fetchUserProfile st (FetchResponse.ok u) t userId).requests = 1 ∧
    (fetchUserProfile st (FetchResponse.ok u) t userId).result
      = Except.ok (transformProfile u t) ∧
    fetchUserProfile (fetchUserProfile st (FetchResponse.ok u) t userId).state resp' t' userId
      = ⟨Except.ok (transformProfile u t),
         (fetchUserProfile st (FetchResponse.ok u) t userId).state, 0⟩ := by
  have hit : ∀ (st2 : ApiState) (q : Obj) (resp2 : FetchResponse) (t2 : Nat),
      mget st2.cache (cacheKey userId) = some q →
      fetchUserProfile st2 resp2 t2 userId = ⟨Except.ok q, st2, 0⟩ := by
    intro st2 q resp2 t2 hq
    simp [fetchUserProfile, hq]
  have h1 : mget (fetchUserProfile st (FetchResponse.ok u) t userId).state.cache
      (cacheKey userId) = some (transformProfile u t) := by
    simp [fetchUserProfile, hmiss, mget_mset_self]
  exact ⟨hit, by simp [fetchUserProfile, hmiss], by simp [fetchUserProfile, hmiss],
    hit _ _ resp' t' h1⟩

theorem fetch_cache_hit_single_request_witness :
    mget (ApiState.mk [] []).cache (cacheKey 1) = none ∧
    (fetchUserProfile (ApiState.mk [] []) (FetchResponse.ok sampleUser) 1 1).requests = 1 ∧
    fetchUserProfile
        (fetchUserProfile (ApiState.mk [] []) (FetchResponse.ok sampleUser) 1 1).state
        FetchResponse.transportError 2 1
      = ⟨Except.ok (transformProfile sampleUser 1),
         (fetchUserProfile (ApiState.mk [] []) (FetchResponse.ok sampleUser) 1 1).state, 0⟩ :=
  ⟨rfl,
   (fetch_cache_hit_single_request (ApiState.mk [] []) sampleUser
      FetchResponse.transportError 1 2 1 rfl).2.1,
   (fetch_cache_hit_single_request (ApiState.mk [] []) sampleUser
      FetchResponse.transportError 1 2 1 rfl).2.2.2⟩

/-- C3: a failed update (non-2xx status or transport error) fails with the
fixed user-safe message (independent of the underlying status), leaves the
whole state — the cache entry included — exactly as it was, and invokes no
subscriber. -/
theorem update_failure_preserves_state (st : ApiState) (throws : Nat → Obj → Bool)
    (resp : UpdateResponse) (t userId : Nat) (pd : Obj)
    (herr : ∀ o, resp ≠ UpdateResponse.ok o) :
    updateUserProfile st throws resp t userId pd
      = ⟨Except.error updateErrorMsg, st, [], []⟩ := by
  cases resp with
  | ok o => exact absurd rfl (herr o)
  | httpError s => rfl
  | transportError => rfl

theorem update_failure_preserves_state_witness :
    updateUserProfile (ApiState.mk [(cacheKey 1, [("name", JsVal.str "J")])] [5])
        (fun _ _ => true) (UpdateResponse.httpError 404) 9 1 []
      = ⟨Except.error updateErrorMsg,
         ApiState.mk [(cacheKey 1, [("name", JsVal.str "J")])] [5], [], []⟩ :=
  update_failure_preserves_state (ApiState.mk [(cacheKey 1, [("name", JsVal.str "J")])] [5])
    (fun _ _ => true) (UpdateResponse.httpError 404) 9 1 []
    (fun o h => UpdateResponse.noConfusion h)

/-- C4: a successful update stores and returns the record obtained by
spreading the server response over the cached record with `lastUpdated`
restamped; response fields win over cached fields, fields absent from both
stay absent, other cache keys are untouched, and every currently-registered
subscriber is invoked exactly once, in registration order, with exactly
that merged record. -/
theorem update_success_merge_broadcast (st : ApiState) (throws : Nat → Obj → Bool)
    (upd pd : Obj) (t userId : Nat) :
    (updateUserProfile st throws (UpdateResponse.ok upd) t userId pd).result
      = Except.ok (mergedRecord st upd t userId) ∧
    mget (updateUserProfile st throws (UpdateResponse.ok upd) t userId pd).state.cache
        (cacheKey userId) = some (mergedRecord st upd t userId) ∧
    (∀ k, k ≠ cacheKey userId →
      mget (updateUserProfile st throws (UpdateResponse.ok upd) t userId pd).state.cache k
        = mget st.cache k) ∧
    (updateUserProfile st throws (UpdateResponse.ok upd) t userId pd).invocations
      = st.subscribers.map (fun c => (c, mergedRecord st upd t userId)) ∧
    mget (mergedRecord st upd t userId) "lastUpdated" = some (JsVal.num t) ∧
    ((upd.map Prod.fst).Nodup → ∀ k, k ≠ "lastUpdated" →
      mget (mergedRecord st upd t userId) k
        = firstSome (mget upd k)
            (mget ((mget st.cache (cacheKey userId)).getD []) k)) := by
  have hcache : (updateUserProfile st throws (UpdateResponse.ok upd) t userId pd).state.cache
      = mset st.cache (cacheKey userId) (mergedRecord st upd t userId) := by
    simp [updateUserProfile, mergedRecord]
  refine ⟨?_, ?_, ?_, ?_, ?_, ?_⟩
  · simp [updateUserProfile, mergedRecord]
  · rw [hcache, mget_mset_self]
  · intro k hk
    rw [hcache, mget_mset_ne st.cache (cacheKey userId) k (mergedRecord st upd t userId) hk]
  · simp [updateUserProfile, notifySubscribers_eq, mergedRecord]
  · rw [mergedRecord, mget_mset_self]
  · intro hnd k hk
    rw [mergedRecord,
      mget_mset_ne (Obj.spread ((mget st.cache (cacheKey userId)).getD []) upd)
        "lastUpdated" k (JsVal.num t) hk,
      mget_spread ((mget st.cache (cacheKey userId)).getD []) upd k hnd]

theorem update_success_merge_broadcast_witness :
    (updateUserProfile wState (fun _ _ => false)
        (UpdateResponse.ok [("name", JsVal.str "X")]) 7 1 []).result
      = Except.ok (mergedRecord wState [("name", JsVal.str "X")] 7 1) ∧
    (updateUserProfile wState (fun _ _ => false)
        (UpdateResponse.ok [("name", JsVal.str "X")]) 7 1 []).invocations
      = [3, 4].map (fun c => (c, mergedRecord wState [("name", JsVal.str "X")] 7 1)) ∧
    mget (mergedRecord wState [("name", JsVal.str "X")] 7 1) "name"
      = firstSome (mget [("name", JsVal.str "X")] "name") (mget wCached "name") ∧
    mget (mergedRecord wState [("name", JsVal.str "X")] 7 1) "x"
      = firstSome (mget [("name", JsVal.str "X")] "x") (mget wCached "x") :=
  ⟨(update_success_merge_broadcast wState (fun _ _ => false)
      [("name", JsVal.str "X")] [] 7 1).1,
   (update_success_merge_broadcast wState (fun _ _ => false)
      [("name", JsVal.str "X")] [] 7 1).2.2.2.1,
   by
     have h := (update_success_merge_broadcast wState (fun _ _ => false)
       [("name", JsVal.str "X")] [] 7 1).2.2.2.2.2 (by decide) "name" (by decide)
     simpa [wState, mget_cons] using h,
   by
     have h := (update_success_merge_broadcast wState (fun _ _ => false)
       [("name", JsVal.str "X")] [] 7 1).2.2.2.2.2 (by decide) "x" (by decide)
     simpa [wState, mget_cons] using h⟩

/-- C5: if a registered subscriber throws during the broadcast of a
successful update, every subscriber registered after it is still invoked
with the merged record, the exception does not escape — `updateUserProfile`
still returns the merged record — and the failure is only logged. -/
theorem subscriber_throw_isolated (st : ApiState) (throws : Nat → Obj → Bool)
    (upd pd : Obj) (t userId : Nat) (pre post : List Nat) (c : Nat)
    (hsubs : st.subscribers = pre ++ c :: post)
    (hthrow : throws c (mergedRecord st upd t userId) = true) :
    (updateUserProfile st throws (UpdateResponse.ok upd) t userId pd).result
      = Except.ok (mergedRecord st upd t userId) ∧
    (∀ d ∈ post, (d, mergedRecord st upd t userId)
      ∈ (updateUserProfile st throws (UpdateResponse.ok upd) t userId pd).invocations) ∧
    (updateUserProfile st throws (UpdateResponse.ok upd) t userId pd).invocations
      = st.subscribers.map (fun s => (s, mergedRecord st upd t userId)) ∧
    subscriberErrorMsg
      ∈ (updateUserProfile st throws (UpdateResponse.ok upd) t userId pd).errorLog := by
  have hinv : (updateUserProfile st throws (UpdateResponse.ok upd) t userId pd).invocations
      = st.subscribers.map (fun s => (s, mergedRecord st upd t userId)) := by
    simp [updateUserProfile, notifySubscribers_eq, mergedRecord]
  have herr : (updateUserProfile st throws (UpdateResponse.ok upd) t userId pd).errorLog
      = (st.subscribers.filter
          (fun s => throws s (mergedRecord st upd t userId))).map
          (fun _ => subscriberErrorMsg) := by
    simp [updateUserProfile, notifySubscribers_eq, mergedRecord]
  refine ⟨?_, ?_, hinv, ?_⟩
  · simp [updateUserProfile, mergedRecord]
  · intro d hd
    rw [hinv, hsubs]
    exact List.mem_map_of_mem _
      (List.mem_append_right pre (List.mem_cons_of_mem c hd))
  · rw [herr]
    have hc : c ∈ st.subscribers.filter
        (fun s => throws s (mergedRecord st upd t userId)) := by
      rw [hsubs]
      exact List.mem_filter.mpr
        ⟨List.mem_append_right pre (List.mem_cons_self c post), hthrow⟩
    exact List.mem_map_of_mem (fun _ => subscriberErrorMsg) hc

theorem subscriber_throw_isolated_witness :
    (updateUserProfile (ApiState.mk [] [1, 2, 3]) (fun d _ => d == 2)
        (UpdateResponse.ok [("name", JsVal.str "X")]) 7 1 []).result
      = Except.ok (mergedRecord (ApiState.mk [] [1, 2, 3]) [("name", JsVal.str "X")] 7 1) ∧
    (3, mergedRecord (ApiState.mk [] [1, 2, 3]) [("name", JsVal.str "X")] 7 1)
      ∈ (updateUserProfile (ApiState.mk [] [1, 2, 3]) (fun d _ => d == 2)
          (UpdateResponse.ok [("name", JsVal.str "X")]) 7 1 []).invocations ∧
    subscriberErrorMsg
      ∈ (updateUserProfile (ApiState.mk [] [1, 2, 3]) (fun d _ => d == 2)
          (UpdateResponse.ok [("name", JsVal.str "X")]) 7 1 []).errorLog :=
  ⟨(subscriber_throw_isolated (ApiState.mk [] [1, 2, 3]) (fun d _ => d == 2)
      [("name", JsVal.str "X")] [] 7 1 [1] [3] 2 rfl rfl).1,
   (subscriber_throw_isolated (ApiState.mk [] [1, 2, 3]) (fun d _ => d == 2)
      [("name", JsVal.str "X")] [] 7 1 [1] [3] 2 rfl rfl).2.1 3 (List.mem_singleton.mpr rfl),
   (subscriber_throw_isolated (ApiState.mk [] [1, 2, 3]) (fun d _ => d == 2)
      [("name", JsVal.str "X")] [] 7 1 [1] [3] 2 rfl rfl).2.2.2⟩

/-- C6: if no cache entry exists and the fetch fails (transport error or a
non-2xx status such as 404), `fetchUserProfile` fails with the fixed
user-safe message, the cache stays absent for that key, and a subsequent
successful fetch for the same key still works and populates the cache. -/
theorem fetch_failure_cache_absent (st : ApiState) (resp : FetchResponse)
    (t userId : Nat)
    (hmiss : mget st.cache (cacheKey userId) = none)
    (herr : ∀ u, resp ≠ FetchResponse.ok u) :
    fetchUserProfile st resp t userId = ⟨Except.error fetchErrorMsg, st, 1⟩ ∧
    mget (fetchUserProfile st resp t userId).state.cache (cacheKey userId) = none ∧
    (∀ (u : UserData) (t' : Nat),
      (fetchUserProfile st (FetchResponse.ok u) t' userId).result
        = Except.ok (transformProfile u t') ∧
      mget (fetchUserProfile st (FetchResponse.ok u) t' userId).state.cache (cacheKey userId)
        = some (transformProfile u t')) := by
  have hfail : fetchUserProfile st resp t userId = ⟨Except.error fetchErrorMsg, st, 1⟩ := by
    cases resp with
    | ok u => exact absurd rfl (herr u)
    | httpError s => simp [fetchUserProfile, hmiss]
    | transportError => simp [fetchUserProfile, hmiss]
  refine ⟨hfail, ?_, ?_⟩
  · rw [hfail]; exact hmiss
  · intro u t'
    exact ⟨by simp [fetchUserProfile, hmiss],
      by simp [fetchUserProfile, hmiss, mget_mset_self]⟩

theorem fetch_failure_cache_absent_witness :
    fetchUserProfile (ApiState.mk [] []) (FetchResponse.httpError 404) 1 1
      = ⟨Except.error fetchErrorMsg, ApiState.mk [] [], 1⟩ ∧
    (fetchUserProfile (ApiState.mk [] []) (FetchResponse.ok sampleUser) 2 1).result
      = Except.ok (transformProfile sampleUser 2) :=
  ⟨(fetch_failure_cache_absent (ApiState.mk [] []) (FetchResponse.httpError 404) 1 1 rfl
      (fun u h => FetchResponse.noConfusion h)).1,
   ((fetch_failure_cache_absent (ApiState.mk [] []) (FetchResponse.httpError 404) 1 1 rfl
      (fun u h => FetchResponse.noConfusion h)).2.2 sampleUser 2).1⟩

/-- C7: one tick of the simulated periodic refresh is a no-op (stores
nothing, invokes no subscriber, creates no entry) when `user_1` is not
cached; when it is, the record stored and broadcast is the prior record
with only `lastSeen` and `lastUpdated` changed. -/
theorem simulate_tick_frame (st : ApiState) (throws : Nat → Obj → Bool) (t : Nat) :
    (mget st.cache "user_1" = none → simulateTick st throws t = (st, [], [])) ∧
    (∀ cur, mget st.cache "user_1" = some cur →
      (simulateTick st throws t).1.cache = mset st.cache "user_1" (refreshedRecord cur t) ∧
      (simulateTick st throws t).1.subscribers = st.subscribers ∧
      (simulateTick st throws t).2.1
        = st.subscribers.map (fun c => (c, refreshedRecord cur t)) ∧
      mget (refreshedRecord cur t) "lastSeen" = some (JsVal.num t) ∧
      mget (refreshedRecord cur t) "lastUpdated" = some (JsVal.num t) ∧
      (∀ k, k ≠ "lastSeen" → k ≠ "lastUpdated" →
        mget (refreshedRecord cur t) k = mget cur k)) := by
  constructor
  · intro h; simp [simulateTick, h]
  · intro cur h
    refine ⟨?_, ?_, ?_, ?_, ?_, ?_⟩
    · simp [simulateTick, h, refreshedRecord]
    · simp [simulateTick, h]
    · simp [simulateTick, h, notifySubscribers_eq, refreshedRecord]
    · rw [refreshedRecord,
        mget_mset_ne (mset cur "lastSeen" (JsVal.num t)) "lastUpdated" "lastSeen"
          (JsVal.num t) (by decide), mget_mset_self]
    · rw [refreshedRecord, mget_mset_self]
    · intro k hk1 hk2
      rw [refreshedRecord,
        mget_mset_ne (mset cur "lastSeen" (JsVal.num t)) "lastUpdated" k (JsVal.num t) hk2,
        mget_mset_ne cur "lastSeen" k (JsVal.num t) hk1]

theorem simulate_tick_frame_witness :
    simulateTick (ApiState.mk [] [3]) (fun _ _ => false) 9
      = (ApiState.mk [] [3], [], []) ∧
    (simulateTick wState (fun _ _ => false) 9).2.1
      = [3, 4].map (fun c => (c, refreshedRecord wCached 9)) ∧
    mget (refreshedRecord wCached 9) "name" = mget wCached "name" :=
  ⟨(simulate_tick_frame (ApiState.mk [] [3]) (fun _ _ => false) 9).1 rfl,
   by
     have h := ((simulate_tick_frame wState (fun _ _ => false) 9).2 wCached
       (by decide)).2.2.1
     simpa [wState] using h,
   ((simulate_tick_frame wState (fun _ _ => false) 9).2 wCached
     (by decide)).2.2.2.2.2 "name" (by decide) (by decide)⟩

/-- C8, counterexample: `subscribers` is a JS `Set`, so passing the same
callback object to `subscribe` twice leaves a single registration — not
two — and a broadcast then invokes the callback once, not once per
`subscribe` call. -/
theorem subscribe_dedup_counterexample :
    (subscribe (subscribe (ApiState.mk [] []) 7) 7).subscribers = [7] ∧
    (notifySubscribers (fun _ _ => false)
        (subscribe (subscribe (ApiState.mk [] []) 7) 7).subscribers
        [("name", JsVal.str "X")]).1.length = 1 := by
  exact ⟨by decide, by decide⟩

/-- C8, amended: registration is identity-deduplicated (`Set` semantics):
registering the same callback twice leaves one registration, a broadcast
invokes each registered callback once per registration (hence once for that
callback), the disposer removes that single registration, and calling a
disposer a second time — or when the registration is already gone — is a
no-op that never errors. -/
theorem subscribe_set_semantics (st : ApiState) (c : Nat)
    (throws : Nat → Obj → Bool) (r : Obj) (hnodup : st.subscribers.Nodup) :
    subscribe (subscribe st c) c = subscribe st c ∧
    (subscribe st c).subscribers.count c = 1 ∧
    (notifySubscribers throws (subscribe st c).subscribers r).1
      = (subscribe st c).subscribers.map (fun d => (d, r)) ∧
    unsubscribe (unsubscribe st c) c = unsubscribe st c ∧
    c ∉ (unsubscribe st c).subscribers ∧
    (∀ d, d ≠ c → ((d ∈ (unsubscribe st c).subscribers) ↔ d ∈ st.subscribers)) := by
  refine ⟨?_, ?_, by simp [notifySubscribers_eq], ?_, ?_, ?_⟩
  · by_cases hm : c ∈ st.subscribers
    · simp [subscribe, hm]
    · simp [subscribe, hm]
  · by_cases hm : c ∈ st.subscribers
    · simpa [subscribe, hm] using List.count_eq_one_of_mem hnodup hm
    · simp [subscribe, hm, List.count_append,
        List.count_eq_zero_of_not_mem hm]
  · simp [unsubscribe, List.filter_filter]
  · simp [unsubscribe, List.mem_filter]
  · intro d hd
    simp [unsubscribe, List.mem_filter, hd]

theorem subscribe_set_semantics_witness :
    subscribe (subscribe wState 4) 4 = subscribe wState 4 ∧
    (subscribe wState 4).subscribers.count 4 = 1 ∧
    unsubscribe (unsubscribe wState 4) 4 = unsubscribe wState 4 ∧
    4 ∉ (unsubscribe wState 4).subscribers :=
  ⟨(subscribe_set_semantics wState 4 (fun _ _ => false) [] (by decide)).1,
   (subscribe_set_semantics wState 4 (fun _ _ => false) [] (by decide)).2.1,
   (subscribe_set_semantics wState 4 (fun _ _ => false) [] (by decide)).2.2.2.1,
   (subscribe_set_semantics wState 4 (fun _ _ => false) [] (by decide)).2.2.2.2.1⟩

/-- C10: calling `clearCache` with a falsy user identifier (`0` or `null`)
clears the entire cache rather than removing a single entry; exactly one
entry is removed only when the identifier is truthy. -/
theorem clearCache_falsy_clears_all (st : ApiState) (n : Nat) (hn : n ≠ 0) :
    (clearCache st (some 0)).cache = [] ∧
    (clearCache st none).cache = [] ∧
    mget (clearCache st (some n)).cache (cacheKey n) = none ∧
    (∀ k, k ≠ cacheKey n → mget (clearCache st (some n)).cache k = mget st.cache k) ∧
    (clearCache st (some 0)).subscribers = st.subscribers := by
  refine ⟨by simp [clearCache, jsTruthy], rfl, ?_, ?_, by simp [clearCache, jsTruthy]⟩
  · simp [clearCache, jsTruthy, hn, mget_mdel_self]
  · intro k hk
    simp only [clearCache, jsTruthy]
    rw [if_pos (by simpa using hn)]
    exact mget_mdel_ne st.cache (cacheKey n) k hk

theorem clearCache_falsy_clears_all_witness :
    (clearCache (ApiState.mk [(cacheKey 1, wCached), (cacheKey 2, wCached)] [3])
        (some 0)).cache = [] ∧
    mget (clearCache (ApiState.mk [(cacheKey 1, wCached), (cacheKey 2, wCached)] [3])
        (some 2)).cache (cacheKey 2) = none ∧
    mget (clearCache (ApiState.mk [(cacheKey 1, wCached), (cacheKey 2, wCached)] [3])
        (some 2)).cache (cacheKey 1)
      = mget (ApiState.mk [(cacheKey 1, wCached), (cacheKey 2, wCached)] [3]).cache
          (cacheKey 1) :=
  ⟨(clearCache_falsy_clears_all
      (ApiState.mk [(cacheKey 1, wCached), (cacheKey 2, wCached)] [3]) 2
      (by decide)).1,
   (clearCache_falsy_clears_all
      (ApiState.mk [(cacheKey 1, wCached), (cacheKey 2, wCached)] [3]) 2
      (by decide)).2.2.1,
   (clearCache_falsy_clears_all
      (ApiState.mk [(cacheKey 1, wCached), (cacheKey 2, wCached)] [3]) 2
      (by decide)).2.2.2.1 (cacheKey 1) (by decide)⟩

/-- Any record newly present at a cache key after one operation was stamped
with that operation's time: every writing path (`fetchUserProfile` on a
miss, a successful `updateUserProfile` merge, a `simulateTick` refresh)
restamps `lastUpdated`, and no other operation stores a record. -/
theorem applyOp_new_record_stamped (throws : Nat → Obj → Bool) (st : ApiState)
    (t : Nat) (op : Op) (k : String) (r : Obj)
    (hchange : mget (applyOp throws st t op).cache k ≠ mget st.cache k)
    (hget : mget (applyOp throws st t op).cache k = some r) :
    mget r "lastUpdated" = some (JsVal.num t) := by
  cases op with
  | fetch resp uid =>
      cases hc : mget st.cache (cacheKey uid) with
      | some q =>
          exfalso; apply hchange
          simp [applyOp, fetchUserProfile, hc]
      | none =>
          cases resp with
          | ok u =>
              have hcache :
                  (applyOp throws st t (Op.fetch (FetchResponse.ok u) uid)).cache
                    = mset st.cache (cacheKey uid) (transformProfile u t) := by
                simp [applyOp, fetchUserProfile, hc]
              by_cases hk : k = cacheKey uid
              · subst hk
                rw [hcache, mget_mset_self] at hget
                have hr : transformProfile u t = r := Option.some.inj hget
                rw [← hr]
                rfl
              · exfalso; apply hchange
                rw [hcache,
                  mget_mset_ne st.cache (cacheKey uid) k (transformProfile u t) hk]
          | httpError s =>
              exfalso; apply hchange
              simp [applyOp, fetchUserProfile, hc]
          | transportError =>
              exfalso; apply hchange
              simp [applyOp, fetchUserProfile, hc]
  | update resp uid pd =>
      cases resp with
      | ok upd =>
          have hcache :
              (applyOp throws st t (Op.update (UpdateResponse.ok upd) uid pd)).cache
                = mset st.cache (cacheKey uid) (mergedRecord st upd t uid) := by
            simp [applyOp, updateUserProfile, mergedRecord]
          by_cases hk : k = cacheKey uid
          · subst hk
            rw [hcache, mget_mset_self] at hget
            have hr : mergedRecord st upd t uid = r := Option.some.inj hget
            rw [← hr, mergedRecord, mget_mset_self]
          · exfalso; apply hchange
            rw [hcache,
              mget_mset_ne st.cache (cacheKey uid) k (mergedRecord st upd t uid) hk]
      | httpError s =>
          exfalso; apply hchange
          simp [applyOp, updateUserProfile]
      | transportError =>
          exfalso; apply hchange
          simp [applyOp, updateUserProfile]
  | tick =>
      cases hc : mget st.cache "user_1" with
      | none =>
          exfalso; apply hchange
          simp [applyOp, simulateTick, hc]
      | some cur =>
          have hcache : (applyOp throws st t Op.tick).cache
              = mset st.cache "user_1" (refreshedRecord cur t) := by
            simp [applyOp, simulateTick, hc, refreshedRecord]
          by_cases hk : k = "user_1"
          · subst hk
            rw [hcache, mget_mset_self] at hget
            have hr : refreshedRecord cur t = r := Option.some.inj hget
            rw [← hr, refreshedRecord, mget_mset_self]
          · exfalso; apply hchange
            rw [hcache, mget_mset_ne st.cache "user_1" k (refreshedRecord cur t) hk]
  | clear uid =>
      cases uid with
      | none =>
          exfalso
          simp [applyOp, clearCache, mget_nil] at hget
      | some n =>
          by_cases hn : n = 0
          · subst hn
            exfalso
            simp [applyOp, clearCache, jsTruthy, mget_nil] at hget
          · have hcache : (applyOp throws st t (Op.clear (some n))).cache
                = mdel st.cache (cacheKey n) := by
              simp [applyOp, clearCache, jsTruthy, hn]
            by_cases hk : k = cacheKey n
            · subst hk
              rw [hcache, mget_mdel_self] at hget
              exact Option.noConfusion hget
            · exfalso; apply hchange
              rw [hcache, mget_mdel_ne st.cache (cacheKey n) k hk]
  | sub c =>
      exfalso; apply hchange
      simp [applyOp, subscribe]
  | unsub c =>
      exfalso; apply hchange
      simp [applyOp, unsubscribe]

/-- A member of a write event is stamped with the event's time, comes from
the new cache value, and witnesses a real change. -/
theorem writeEvent_mem (old new : Option Obj) (t : Nat) (p : Nat × Obj)
    (hp : p ∈ writeEvent old new t) :
    p.1 = t ∧ new = some p.2 ∧ new ≠ old := by
  rcases p with ⟨pt, pr⟩
  by_cases h : new = old
  · rw [writeEvent.eq_def, if_pos h] at hp
    simp at hp
  · rw [writeEvent.eq_def, if_neg h] at hp
    cases new with
    | none => simp at hp
    | some r =>
        simp at hp
        obtain ⟨h1, h2⟩ := hp
        subst h1; subst h2
        exact ⟨rfl, rfl, h⟩

/-- The times of the writes to a key form a sublist of the trace's times. -/
theorem writesTo_times_sublist (throws : Nat → Obj → Bool) (k : String) :
    ∀ (trace : List (Nat × Op)) (st : ApiState),
      List.Sublist ((writesTo throws k st trace).map Prod.fst)
        (trace.map Prod.fst) := by
  intro trace
  induction trace with
  | nil => intro st; simp [writesTo]
  | cons q rest ih =>
      intro st
      obtain ⟨t, op⟩ := q
      rw [writesTo, List.map_append, List.map_cons]
      have hev : (writeEvent (mget st.cache k)
            (mget (applyOp throws st t op).cache k) t).map Prod.fst = [] ∨
          (writeEvent (mget st.cache k)
            (mget (applyOp throws st t op).cache k) t).map Prod.fst = [t] := by
        by_cases h : mget (applyOp throws st t op).cache k = mget st.cache k
        · left; rw [writeEvent.eq_def, if_pos h]; rfl
        · cases hm : mget (applyOp throws st t op).cache k with
          | none => left; rw [writeEvent.eq_def, if_neg (hm ▸ h)]; rfl
          | some r => right; rw [writeEvent.eq_def, if_neg (hm ▸ h)]; rfl
      rcases hev with hev | hev
      · rw [hev, List.nil_append]
        exact List.Sublist.cons t (ih (applyOp throws st t op))
      · rw [hev, List.singleton_append]
        exact List.Sublist.cons₂ t (ih (applyOp throws st t op))

/-- Every write recorded along a trace is stamped with its own time. -/
theorem writesTo_stamped (throws : Nat → Obj → Bool) (k : String) :
    ∀ (trace : List (Nat × Op)) (st : ApiState) (p : Nat × Obj),
      p ∈ writesTo throws k st trace →
      mget p.2 "lastUpdated" = some (JsVal.num p.1) := by
  intro trace
  induction trace with
  | nil => intro st p hp; simp [writesTo] at hp
  | cons q rest ih =>
      intro st p hp
      obtain ⟨t, op⟩ := q
      rw [writesTo] at hp
      rcases List.mem_append.mp hp with hp | hp
      · obtain ⟨h1, h2, h3⟩ := writeEvent_mem _ _ _ _ hp
        rw [h1]
        exact applyOp_new_record_stamped throws st t op k p.2 h3 h2
      · exact ih (applyOp throws st t op) p hp

/-- C9: along any trace of operations run at strictly increasing wall-clock
times, every record written to a given cache key carries the writing
operation's time as its `lastUpdated` stamp, and those times are strictly
increasing across the successive writes to that key — whichever writing
paths (fetch, update merge, periodic refresh tick) produced them. -/
theorem lastUpdated_strictly_increases (throws : Nat → Obj → Bool) (k : String)
    (st : ApiState) (trace : List (Nat × Op))
    (ht : (trace.map Prod.fst).Pairwise (· < ·)) :
    (∀ p ∈ writesTo throws k st trace,
      mget p.2 "lastUpdated" = some (JsVal.num p.1)) ∧
    ((writesTo throws k st trace).map Prod.fst).Pairwise (· < ·) :=
  ⟨fun p hp => writesTo_stamped throws k trace st p hp,
   List.Pairwise.sublist (writesTo_times_sublist throws k trace st) ht⟩

theorem lastUpdated_strictly_increases_witness :
    ((witTrace.map Prod.fst).Pairwise (· < ·)) ∧
    ((writesTo (fun _ _ => false) "user_1" (ApiState.mk [] [])
        witTrace).map Prod.fst).Pairwise (· < ·) :=
  ⟨by decide,
   (lastUpdated_strictly_increases (fun _ _ => false) "user_1" (ApiState.mk [] [])
      witTrace (by decide)).2⟩

end UserAPI
